import Mathlib

/-!
Verification of the recurrence-occurrence engine of the church
community-management backend (`backend/app/event_utils.py`,
`backend/app/prayer_utils.py` and the series/occurrence routes of
`backend/app/routers.py`).

Modelling conventions:
* A Python `datetime` is an absolute instant, embedded as an `Int` counting
  microseconds (Python's datetime resolution) from midnight of the day with
  proleptic-Gregorian ordinal 0; day `d`'s midnight is the instant
  `d * usPerDay`.  Timezone normalisation (the `tzinfo` juggling at the top
  of the classifiers and routes) turns every input into one common zone
  before any comparison, so the embedding works directly with normalised
  absolute instants and carries no zone.
* A Python `date` is its proleptic-Gregorian ordinal (`date.toordinal`),
  embedded as an `Int`; the structured year/month/day view `Ymd` is used
  where the source manipulates calendar components (monthly stepping).
* The unbounded `while` loops of the generator are embedded as
  fuel-indexed recursions.  Every loop walks a date variable that strictly
  increases by at least one day per iteration while the loop condition
  requires it to stay `≤ actual_end_date`, so
  `fuel = actual_end_date + 2 - start date` iterations always suffice; the
  fuel never cuts an iteration the Python loop would have run.
-/

namespace PPH

/-- Microseconds per calendar day. -/
def usPerDay : Int := 86400000000

/-- Microseconds per minute. -/
def usPerMinute : Int := 60000000

/-- `t.date().toordinal()`: the ordinal of the calendar day holding `t`. -/
def dateOf (t : Int) : Int := t / usPerDay

/-- `t.time()` as microseconds since that day's midnight. -/
def timeOf (t : Int) : Int := t % usPerDay

/-- `datetime.combine(date, time)`. -/
def combine (d : Int) (tod : Int) : Int := d * usPerDay + tod

/-- Truncation to minute precision: the source rebuilds
`datetime(y, mo, d, h, mi)` from an instant's components, i.e. zeroes the
seconds and microseconds. -/
def truncMin (t : Int) : Int := t - t % usPerMinute

/-- A structured calendar date (year, month 1-12, day 1-31). -/
structure Ymd where
  y : Nat
  m : Nat
  d : Nat
deriving Repr, DecidableEq

/-- Gregorian leap-year rule (Python `calendar.isleap`). -/
def isLeap (y : Nat) : Bool := (y % 4 == 0 && y % 100 != 0) || y % 400 == 0

/-- `calendar.monthrange(y, m)[1]`: the number of days of month `m` of
year `y`. -/
def daysInMonth (y m : Nat) : Nat :=
  if m == 2 then (if isLeap y then 29 else 28)
  else if m == 4 || m == 6 || m == 9 || m == 11 then 30
  else 31

/-- Days of year `y` that precede month `m`. -/
def daysBeforeMonth (y m : Nat) : Nat :=
  (List.range (m - 1)).foldl (fun a i => a + daysInMonth y (i + 1)) 0

/-- Days before January 1 of year `y` (ordinal of Dec 31 of year `y - 1`). -/
def daysBeforeYear (y : Nat) : Nat :=
  365 * (y - 1) + (y - 1) / 4 + (y - 1) / 400 - (y - 1) / 100

/-- `date(y, m, d).toordinal()`. -/
def toOrd (x : Ymd) : Nat := daysBeforeYear x.y + daysBeforeMonth x.y x.m + x.d

/-- `date.fromordinal(n)`, by the 400/100/4/1-year cycle decomposition the
CPython implementation uses. -/
def ordToYmd (n : Nat) : Ymd :=
  let n0 := n - 1
  let n400 := n0 / 146097
  let r400 := n0 % 146097
  let n100 := r400 / 36524
  let r100 := r400 % 36524
  let n4 := r100 / 1461
  let r4 := r100 % 1461
  let n1 := r4 / 365
  let r1 := r4 % 365
  if n1 == 4 || n100 == 4 then
    ⟨400 * n400 + 100 * n100 + 4 * n4 + n1, 12, 31⟩
  else
    let y := 400 * n400 + 100 * n100 + 4 * n4 + n1 + 1
    let mo := (List.range 12).foldl
      (fun acc i => if daysBeforeMonth y (i + 1) ≤ r1 then i + 1 else acc) 1
    ⟨y, mo, r1 + 1 - daysBeforeMonth y mo⟩

/-- `date.weekday()` of the day with ordinal `d` (0 = Monday .. 6 = Sunday;
ordinal 1, 0001-01-01, is a Monday). -/
def weekday (d : Int) : Int := (d + 6) % 7

/-- Builds the instant of year/month/day at hour:minute, for concrete test
inputs. -/
def mkDT (y mo d hh mi : Nat) : Int :=
  combine (toOrd ⟨y, mo, d⟩ : Int) (((hh * 60 + mi) * 60000000 : Nat) : Int)

/-- `event_utils.compute_event_status`: after normalising the three instants
to one timezone (elided: `DT` instants are already absolute) it truncates
all three to minute precision and three-way compares. -/
def compute_event_status (start_datetime end_datetime : Int) (now : Int) : String :=
  let now_truncated := truncMin now
  let start_truncated := truncMin start_datetime
  let end_truncated := truncMin end_datetime
  if now_truncated < start_truncated then "upcoming"
  else if start_truncated ≤ now_truncated ∧ now_truncated < end_truncated then "ongoing"
  else "completed"

/-- `prayer_utils.compute_prayer_status` as it stands in the repository:
takes a calendar date plus two times of day, combines each time with the
date, truncates to minute precision and three-way compares — returning
the string `inprogress` (not `ongoing`) in the middle case. -/
def compute_prayer_status (prayer_date : Int) (start_time end_time : Int) (now : Int) : String :=
  let now_truncated := truncMin now
  let start_truncated := truncMin (combine prayer_date start_time)
  let end_truncated := truncMin (combine prayer_date end_time)
  if now_truncated < start_truncated then "upcoming"
  else if start_truncated ≤ now_truncated ∧ now_truncated < end_truncated then "inprogress"
  else "completed"

/-- Modelled from the spec: the datetime-based prayer status classifier the
routes import (`compute_prayer_status(start_datetime, end_datetime, now)` at
`routers.py:496` etc.) is not among the provided source files — the copy of
`prayer_utils.py` in the tree only has the older date-plus-times signature.
Per spec section 4.2 the classifier normalises the three instants to one
zone, truncates to minute precision, and maps `now < start` to upcoming,
`start ≤ now < end` to ongoing, `now ≥ end` to completed, exactly like
`compute_event_status`. -/
def compute_prayer_status_dt (start_datetime end_datetime : Int) (now : Int) : String :=
  compute_event_status start_datetime end_datetime now

/-- Python `str.strip()` at character level: drop whitespace from both
ends. -/
def stripList (l : List Char) : List Char :=
  ((l.dropWhile Char.isWhitespace).reverse.dropWhile Char.isWhitespace).reverse

/-- Python `str.split(',')` at character level: split on every comma,
keeping empty pieces. -/
def splitCommaChars : List Char → List (List Char)
  | [] => [[]]
  | c :: rest =>
    match splitCommaChars rest with
    | [] => [[c]]
    | piece :: pieces => if c = ',' then [] :: piece :: pieces else (c :: piece) :: pieces

/-- Python `int(t)` on a string of decimal digits. -/
def digitsToNat (l : List Char) : Nat :=
  l.foldl (fun a c => a * 10 + (c.toNat - 48)) 0

/-- `event_utils.parse_recurrence_days`: `None` or the empty string give
`[]`; otherwise split on commas, strip each token, keep the tokens that are
nonempty and all digits (`str.isdigit`), and parse each kept token as a
decimal number.  (Python's `str.isdigit`/`int` also accept non-ASCII digit
characters; the embedding covers the ASCII alphabet the callers produce.) -/
def parse_recurrence_days (days_str : Option String) : List Nat :=
  match days_str with
  | none => []
  | some s =>
    if s = "" then []
    else (splitCommaChars s.data).filterMap fun tok =>
      let t := stripList tok
      if t ≠ [] ∧ t.all Char.isDigit then some (digitsToNat t) else none

/-- The month step of `generate_occurrences`'s monthly branch: December
rolls to January of the next year keeping the day; otherwise
`date.replace(month=m+1)` is tried and, on `ValueError` (the day does not
exist in the next month), the day clamps to the next month's last day. -/
def monthNext (x : Ymd) : Ymd :=
  if x.m == 12 then ⟨x.y + 1, 1, x.d⟩
  else if x.d ≤ daysInMonth x.y (x.m + 1) then ⟨x.y, x.m + 1, x.d⟩
  else ⟨x.y, x.m + 1, daysInMonth x.y (x.m + 1)⟩

/-- The generator's count-limit test
`if recurrence_count and count >= recurrence_count: break` — Python
truthiness makes `recurrence_count = 0` (and `None`) impose no limit. -/
def rcBreak (rc : Option Int) (count : Nat) : Bool :=
  match rc with
  | none => false
  | some c => decide (c ≠ 0 ∧ c ≤ (count : Int))

/-- The `while` loop of the daily branch of `generate_occurrences`: emit
`(current_start, current_start + duration)` while `current_date` stays on or
before `actual_end`, stepping one day at a time and re-combining the date
with `current_start.time()`. -/
def dailyGo (fuel : Nat) (actual_end duration : Int) (rc : Option Int)
    (cur_date : Int) (cur_start : Int) (count : Nat) : List (Int × Int) :=
  match fuel with
  | 0 => []
  | fuel + 1 =>
    if cur_date ≤ actual_end then
      if rcBreak rc count then []
      else
        (cur_start, cur_start + duration) ::
          dailyGo fuel actual_end duration rc (cur_date + 1)
            (combine (cur_date + 1) (timeOf cur_start)) (count + 1)
    else []

/-- The inner `for day_offset in days` loop of the weekly branch: skip days
before the anchor date (`continue`), stop at the first day past
`actual_end` or once the count limit trips (`break`), otherwise emit and
bump the count.  Returns the emissions together with the updated count. -/
def weeklyDays (days : List Nat) (week_start start_date actual_end tod duration : Int)
    (rc : Option Int) (count : Nat) : List (Int × Int) × Nat :=
  match days with
  | [] => ([], count)
  | d :: rest =>
    let occurrence_date := week_start + (d : Int)
    if occurrence_date < start_date then
      weeklyDays rest week_start start_date actual_end tod duration rc count
    else if actual_end < occurrence_date then ([], count)
    else if rcBreak rc count then ([], count)
    else
      let occurrence_start := combine occurrence_date tod
      let rec_rest := weeklyDays rest week_start start_date actual_end tod duration rc (count + 1)
      ((occurrence_start, occurrence_start + duration) :: rec_rest.1, rec_rest.2)

/-- The outer `while` loop of the weekly branch: per week, visit every
offset of `days` from the week's Monday, then step seven days. -/
def weeklyGo (fuel : Nat) (days : List Nat) (start_date actual_end tod duration : Int)
    (rc : Option Int) (cur_date : Int) (count : Nat) : List (Int × Int) :=
  match fuel with
  | 0 => []
  | fuel + 1 =>
    if cur_date ≤ actual_end then
      if rcBreak rc count then []
      else
        let week_start := cur_date - weekday cur_date
        let emitted := weeklyDays days week_start start_date actual_end tod duration rc count
        emitted.1 ++
          weeklyGo fuel days start_date actual_end tod duration rc (cur_date + 7) emitted.2
    else []

/-- The `while` loop of the monthly branch: emit on the current structured
date while its ordinal stays on or before `actual_end`, stepping by
`monthNext`. -/
def monthlyGo (fuel : Nat) (actual_end tod duration : Int) (rc : Option Int)
    (cur : Ymd) (count : Nat) : List (Int × Int) :=
  match fuel with
  | 0 => []
  | fuel + 1 =>
    if (toOrd cur : Int) ≤ actual_end then
      if rcBreak rc count then []
      else
        let occurrence_start := combine (toOrd cur) tod
        (occurrence_start, occurrence_start + duration) ::
          monthlyGo fuel actual_end tod duration rc (monthNext cur) (count + 1)
    else []

/-- `event_utils.generate_occurrences` (the prayer twin the routes import,
`generate_prayer_occurrences`, mirrors it): expands the anchor window into
concrete `(start, end)` windows.  The generation horizon is the anchor's
date plus `max_months * 30` days, tightened by `recurrence_end_date`; each
branch's loop is embedded with fuel `actual_end_date + 2 - anchor date`,
enough for every iteration the Python loop runs (`none` loops zero times,
daily steps one day, weekly seven days, monthly at least 28 days per
iteration). -/
def generate_occurrences (start_datetime end_datetime : Int) (recurrence_type : String)
    (recurrence_days : Option String) (recurrence_end_date : Option Int)
    (recurrence_count : Option Int) (max_months : Nat) : List (Int × Int) :=
  let duration := end_datetime - start_datetime
  let generation_end_date := dateOf start_datetime + 30 * (max_months : Int)
  let actual_end_date :=
    match recurrence_end_date with
    | none => generation_end_date
    | some r => min generation_end_date r
  let fuel := (actual_end_date + 2 - dateOf start_datetime).toNat
  if recurrence_type = "none" then [(start_datetime, end_datetime)]
  else if recurrence_type = "daily" then
    dailyGo fuel actual_end_date duration recurrence_count
      (dateOf start_datetime) start_datetime 0
  else if recurrence_type = "weekly" then
    let parsed := parse_recurrence_days recurrence_days
    let days := if parsed.isEmpty then [(weekday (dateOf start_datetime)).toNat] else parsed
    weeklyGo fuel days (dateOf start_datetime) actual_end_date
      (timeOf start_datetime) duration recurrence_count (dateOf start_datetime) 0
  else if recurrence_type = "monthly" then
    monthlyGo fuel actual_end_date (timeOf start_datetime) duration recurrence_count
      (ordToYmd (dateOf start_datetime).toNat) 0
  else []

/-- A persisted prayer occurrence row (`models.PrayerOccurrence`), with the
fields the series/occurrence routes read and write. -/
structure PrayerOccurrence where
  id : Nat
  prayer_series_id : Nat
  title : String
  prayer_type : String
  location : Option String
  join_info : Option String
  start_datetime : Int
  end_datetime : Int
  status : String
deriving Repr, DecidableEq

/-- The occurrence-update payload (`schemas.PrayerOccurrenceUpdate`). -/
structure PrayerOccurrenceUpdate where
  title : String
  prayer_type : String
  location : Option String
  join_info : Option String
  start_datetime : Int
  end_datetime : Int
deriving Repr, DecidableEq

/-- Python falsiness-or-blank of an optional string:
`not s or not s.strip()`. -/
def isBlank (s : Option String) : Bool :=
  match s with
  | none => true
  | some s => stripList s.data = []

/-- The prayer-type validation block shared by the prayer create and edit
routes: offline requires a non-blank location and silently clears a
non-blank join_info; online requires non-blank join info and silently
clears a non-blank location; other types are rejected.  Returns the
possibly-cleared (location, join_info). -/
def validate_prayer_type_fields (prayer_type : String) (location join_info : Option String) :
    Except String (Option String × Option String) :=
  if prayer_type = "offline" then
    if isBlank location then Except.error "Location is required for offline prayers."
    else Except.ok (location, if isBlank join_info then join_info else none)
  else if prayer_type = "online" then
    if isBlank join_info then Except.error "WhatsApp join information is required for online prayers."
    else Except.ok ((if isBlank location then location else none), join_info)
  else Except.error "Prayer type must be online or offline."

/-- `db.query(PrayerOccurrence).filter(PrayerOccurrence.id == i).first()`. -/
def lookupOcc (state : List PrayerOccurrence) (i : Nat) : Option PrayerOccurrence :=
  state.find? fun o => o.id == i

/-- The window re-derivation the apply-to-future pass runs on one sibling
(`routers.py:705-738`): keep the sibling's own start date with the edit's
new start time; a same-day sibling also keeps its date for the new end,
while a multi-day sibling applies the new end time to its own end date and,
only in that branch, falls back to `start + new_duration` when the result
is not after the start; metadata is copied from the (validated) edit and
status recomputed. -/
def apply_new_times (upd : PrayerOccurrenceUpdate) (location join_info : Option String)
    (new_start_time new_end_time new_duration : Int) (now : Int)
    (future_occ : PrayerOccurrence) : PrayerOccurrence :=
  let future_occ_start_date := dateOf future_occ.start_datetime
  let future_occ_end_date := dateOf future_occ.end_datetime
  let new_start := combine future_occ_start_date new_start_time
  let new_end :=
    if future_occ_start_date = future_occ_end_date then
      combine future_occ_start_date new_end_time
    else
      let e := combine future_occ_end_date new_end_time
      if e ≤ new_start then new_start + new_duration else e
  { future_occ with
    title := upd.title
    prayer_type := upd.prayer_type
    location := location
    join_info := join_info
    start_datetime := new_start
    end_datetime := new_end
    status := compute_prayer_status_dt new_start new_end now }

/-- What the edit route does to one stored row: the target row takes the
edit's (validated) fields, window and recomputed status; when
`apply_to_future` is set, a row of the same series whose start is strictly
after the target's original start and strictly after `now` is re-derived
by `apply_new_times`; every other row is untouched. -/
def edit_occ_map (occurrence : PrayerOccurrence) (occurrence_id : Nat)
    (upd : PrayerOccurrenceUpdate) (location join_info : Option String)
    (apply_to_future : Bool) (now : Int) (original_start_datetime : Int)
    (o : PrayerOccurrence) : PrayerOccurrence :=
  if o.id == occurrence_id then
    { o with
      title := upd.title
      prayer_type := upd.prayer_type
      location := location
      join_info := join_info
      start_datetime := upd.start_datetime
      end_datetime := upd.end_datetime
      status := compute_prayer_status_dt upd.start_datetime upd.end_datetime now }
  else if apply_to_future && o.prayer_series_id == occurrence.prayer_series_id
      && original_start_datetime < o.start_datetime && now < o.start_datetime then
    apply_new_times upd location join_info (timeOf upd.start_datetime)
      (timeOf upd.end_datetime) (upd.end_datetime - upd.start_datetime) now o
  else o

/-- `routers.update_prayer_occurrence` on the table of occurrence rows:
404 on an unknown id, precondition failure when the target has started or
the new window is invalid or its start not in the future; on success every
row is rewritten by `edit_occ_map`.  (The target row itself, already
holding the new window when the route queries the future siblings, is a
fixed point of the sibling re-derivation, so this per-row map is the table
the route commits.) -/
def update_prayer_occurrence (state : List PrayerOccurrence) (occurrence_id : Nat)
    (upd : PrayerOccurrenceUpdate) (apply_to_future : Bool) (now : Int) :
    Except String (List PrayerOccurrence) :=
  match lookupOcc state occurrence_id with
  | none => Except.error "Prayer occurrence not found"
  | some occurrence =>
    if occurrence.start_datetime ≤ now then
      Except.error "This prayer has already started and cannot be edited."
    else
      match validate_prayer_type_fields upd.prayer_type upd.location upd.join_info with
      | Except.error e => Except.error e
      | Except.ok (location, join_info) =>
        if upd.end_datetime ≤ upd.start_datetime then
          Except.error "End datetime must be after start datetime."
        else if upd.start_datetime ≤ now then
          Except.error "The new start datetime cannot be in the past."
        else
          Except.ok (state.map (edit_occ_map occurrence occurrence_id upd location join_info
            apply_to_future now occurrence.start_datetime))

/-- `routers.delete_prayer_occurrence`: 404 on an unknown id, precondition
failure when the target has started; otherwise the target row is deleted
and, when `delete_future` is set, so is every row of the same series whose
start is strictly after the target's original start and strictly after
`now`. -/
def delete_prayer_occurrence (state : List PrayerOccurrence) (occurrence_id : Nat)
    (delete_future : Bool) (now : Int) : Except String (List PrayerOccurrence) :=
  match lookupOcc state occurrence_id with
  | none => Except.error "Prayer occurrence not found"
  | some occurrence =>
    if occurrence.start_datetime ≤ now then
      Except.error "This prayer has already started and cannot be deleted."
    else
      Except.ok (state.filter fun o =>
        !(o.id == occurrence_id ||
          (delete_future && o.prayer_series_id == occurrence.prayer_series_id
            && occurrence.start_datetime < o.start_datetime && now < o.start_datetime)))

/-- The series-creation payload (`schemas.PrayerSeriesCreate`). -/
structure PrayerSeriesCreate where
  title : String
  prayer_type : String
  location : Option String
  join_info : Option String
  recurrence_type : String
  recurrence_days : Option String
  recurrence_end_date : Option Int
  recurrence_count : Option Int
  start_datetime : Int
  end_datetime : Int
deriving Repr, DecidableEq

/-- Python falsiness of the optional `recurrence_days` string: `None` or
the empty string. -/
def optStrFalsy (s : Option String) : Bool :=
  match s with
  | none => true
  | some s => s = ""

/-- The validation prologue of `routers.create_prayer_series`
(lines 401-461): recurrence type must be one of none/daily/weekly/monthly,
the prayer-type block runs, the window must satisfy `end > start`, the
start must not be before `now`, the end must not be before `now` (dead,
given the previous two checks), and an unset weekly `recurrence_days`
defaults to the anchor's weekday.  Returns the payload as the route
persists it. -/
def create_prayer_series_checks (prayer : PrayerSeriesCreate) (now : Int) :
    Except String PrayerSeriesCreate :=
  if !(["none", "daily", "weekly", "monthly"].contains prayer.recurrence_type) then
    Except.error "Prayer recurrence type must be none, daily, weekly, or monthly."
  else
    match validate_prayer_type_fields prayer.prayer_type prayer.location prayer.join_info with
    | Except.error e => Except.error e
    | Except.ok (location, join_info) =>
      if prayer.end_datetime ≤ prayer.start_datetime then
        Except.error "End datetime must be after start datetime."
      else if prayer.start_datetime < now then
        Except.error "Cannot create prayers in the past. Start datetime must be in the future."
      else if prayer.end_datetime < now then
        Except.error "Cannot create prayers that are fully in the past."
      else
        let recurrence_days :=
          if prayer.recurrence_type = "weekly" && optStrFalsy prayer.recurrence_days then
            some (toString (weekday (dateOf prayer.start_datetime)))
          else prayer.recurrence_days
        Except.ok { prayer with
          location := location
          join_info := join_info
          recurrence_days := recurrence_days }

/-- Midnight of `now`'s day:
`datetime.combine(now.date(), datetime.min.time())`. -/
def todayStart (now : Int) : Int := combine (dateOf now) 0

/-- The last microsecond of `now`'s day:
`datetime.combine(now.date(), datetime.max.time())`, i.e. 23:59:59.999999. -/
def todayEnd (now : Int) : Int := combine (dateOf now) (usPerDay - 1)

/-- The tab filter of `routers.list_prayer_occurrences`: "today" keeps rows
overlapping the current calendar day that have not ended, "upcoming" keeps
rows starting strictly after today's last microsecond, "past" keeps rows
that have ended; any other tab keeps everything. -/
def prayer_tab_filter (tab : Option String) (now : Int) (o : PrayerOccurrence) : Bool :=
  match tab with
  | some "today" =>
    o.start_datetime ≤ todayEnd now && todayStart now ≤ o.end_datetime && now ≤ o.end_datetime
  | some "upcoming" => todayEnd now < o.start_datetime
  | some "past" => o.end_datetime < now
  | _ => true

/-- The spec's `stepOneMonth` (section 4.1), used only to state the
claimed calendar-month generation bound: advance one month keeping the
day, clamping to the target month's last valid day. -/
def stepOneMonthSpec (x : Ymd) : Ymd :=
  let y := if x.m == 12 then x.y + 1 else x.y
  let m := if x.m == 12 then 1 else x.m + 1
  ⟨y, m, min x.d (daysInMonth y m)⟩

/-- A date advanced by `k` calendar months, by iterating the spec's
month step. -/
def advanceMonthsSpec : Nat → Ymd → Ymd
  | 0, x => x
  | k + 1, x => advanceMonthsSpec k (stepOneMonthSpec x)

/-- Concrete inputs for the create-validation counterexample: a valid
online payload whose window has started (start 11:00 < now 12:00) but not
ended (end 13:00 > now). -/
def c6Payload : PrayerSeriesCreate :=
  ⟨"Midday Prayer", "online", none, some "wa-link", "none", none, none, none,
    mkDT 2025 6 1 11 0, mkDT 2025 6 1 13 0⟩

/-- The fixed reference instant of the create-validation counterexample. -/
def c6Now : Int := mkDT 2025 6 1 12 0

/-- Concrete inputs for the apply-to-future scenarios: a weekly series of
Monday occurrences (June 2, 9, 16 of 2025). -/
def c3Occ1 : PrayerOccurrence :=
  ⟨1, 10, "Evening Prayer", "online", none, some "wa-link", mkDT 2025 6 2 9 0, mkDT 2025 6 2 10 0, "upcoming"⟩

def c3Occ2 : PrayerOccurrence :=
  ⟨2, 10, "Evening Prayer", "online", none, some "wa-link", mkDT 2025 6 9 9 0, mkDT 2025 6 9 10 0, "upcoming"⟩

def c3Occ3 : PrayerOccurrence :=
  ⟨3, 10, "Evening Prayer", "online", none, some "wa-link", mkDT 2025 6 16 9 0, mkDT 2025 6 16 10 0, "upcoming"⟩

def c3State : List PrayerOccurrence := [c3Occ1, c3Occ2, c3Occ3]

def c3Upd : PrayerOccurrenceUpdate :=
  ⟨"Evening Prayer", "online", none, some "wa-link", mkDT 2025 6 2 9 30, mkDT 2025 6 2 10 30⟩

def c3Now : Int := mkDT 2025 6 1 12 0

/-- An already-started sibling (relative to `c3Now`) of the same series. -/
def c5Started : PrayerOccurrence :=
  ⟨5, 10, "Morning Prayer", "online", none, some "wa-link", mkDT 2025 6 1 9 0, mkDT 2025 6 1 10 0, "completed"⟩

def c5State : List PrayerOccurrence := [c5Started, c3Occ1, c3Occ2]

/-- Concrete inputs for the window-invariant bug: two same-day evening
occurrences and a valid midnight-spanning edit. -/
def c4Occ1 : PrayerOccurrence :=
  ⟨1, 20, "Night Prayer", "online", none, some "wa-link", mkDT 2025 6 2 21 0, mkDT 2025 6 2 22 0, "upcoming"⟩

def c4Occ2 : PrayerOccurrence :=
  ⟨2, 20, "Night Prayer", "online", none, some "wa-link", mkDT 2025 6 9 21 0, mkDT 2025 6 9 22 0, "upcoming"⟩

def c4Upd : PrayerOccurrenceUpdate :=
  ⟨"Night Prayer", "online", none, some "wa-link", mkDT 2025 6 2 23 0, mkDT 2025 6 3 1 0⟩

end PPH

namespace PPH

/- Auxiliary arithmetic facts about the instant model. -/

theorem timeOf_nonneg (t : Int) : 0 ≤ timeOf t := by
  unfold timeOf usPerDay
  omega

theorem timeOf_lt (t : Int) : timeOf t < usPerDay := by
  unfold timeOf usPerDay
  omega

theorem dateOf_combine (d tod : Int) (h0 : 0 ≤ tod) (h1 : tod < usPerDay) :
    dateOf (combine d tod) = d := by
  unfold dateOf combine usPerDay at *
  omega

theorem dateOf_combine_timeOf (d : Int) (t : Int) :
    dateOf (combine d (timeOf t)) = d :=
  dateOf_combine d (timeOf t) (timeOf_nonneg t) (timeOf_lt t)

theorem truncMin_mono {a b : Int} (h : a ≤ b) : truncMin a ≤ truncMin b := by
  show a - a % usPerMinute ≤ b - b % usPerMinute
  have hm : (0 : Int) < usPerMinute := by unfold usPerMinute; omega
  have h1 : usPerMinute * (a / usPerMinute) + a % usPerMinute = a :=
    Int.ediv_add_emod a usPerMinute
  have h2 : usPerMinute * (b / usPerMinute) + b % usPerMinute = b :=
    Int.ediv_add_emod b usPerMinute
  have hq : a / usPerMinute ≤ b / usPerMinute := Int.ediv_le_ediv hm h
  have hmul : usPerMinute * (a / usPerMinute) ≤ usPerMinute * (b / usPerMinute) :=
    mul_le_mul_of_nonneg_left hq (le_of_lt hm)
  linarith

/-- Claim C2: for every start, end and now of a window with `start ≤ end`
(amendment: the claimed biconditionals contradict each other on inverted
windows, see the counterexample), after truncation to minute precision the
classifier returns upcoming iff `now < start`, ongoing iff
`start ≤ now < end`, and completed iff `now ≥ end`; the four boundary
instances of the claim (start − 1 minute, start, end − 1 minute, end) are
instances of these biconditionals. -/
theorem compute_event_status_classifies (s e n : Int) (h : s ≤ e) :
    (compute_event_status s e n = "upcoming" ↔ truncMin n < truncMin s) ∧
    (compute_event_status s e n = "ongoing" ↔
      truncMin s ≤ truncMin n ∧ truncMin n < truncMin e) ∧
    (compute_event_status s e n = "completed" ↔ truncMin e ≤ truncMin n) := by
  have hse : truncMin s ≤ truncMin e := truncMin_mono h
  unfold compute_event_status
  by_cases h1 : truncMin n < truncMin s
  · rw [if_pos h1]
    refine ⟨⟨fun _ => h1, fun _ => rfl⟩,
      ⟨fun hx => absurd hx (by decide), fun hx => absurd hx.1 (not_le.mpr h1)⟩,
      ⟨fun hx => absurd hx (by decide), fun hx => absurd hx (by push_neg; linarith)⟩⟩
  · rw [if_neg h1]
    by_cases h2 : truncMin s ≤ truncMin n ∧ truncMin n < truncMin e
    · rw [if_pos h2]
      refine ⟨⟨fun hx => absurd hx (by decide), fun hx => absurd hx h1⟩,
        ⟨fun _ => h2, fun _ => rfl⟩,
        ⟨fun hx => absurd hx (by decide), fun hx => absurd h2.2 (not_lt.mpr hx)⟩⟩
    · rw [if_neg h2]
      push_neg at h1 h2
      have he : truncMin e ≤ truncMin n := h2 h1
      refine ⟨⟨fun hx => absurd hx (by decide), fun hx => absurd hx (not_lt.mpr h1)⟩,
        ⟨fun hx => absurd hx (by decide), fun hx => absurd hx.2 (not_lt.mpr he)⟩,
        ⟨fun _ => he, fun _ => rfl⟩⟩

/-- Witness for C2: at `now = start` of a valid one-hour window the
classifier answers ongoing. -/
theorem compute_event_status_classifies_witness :
    compute_event_status (mkDT 2025 6 1 9 0) (mkDT 2025 6 1 10 0) (mkDT 2025 6 1 9 0) =
      "ongoing" :=
  (compute_event_status_classifies (mkDT 2025 6 1 9 0) (mkDT 2025 6 1 10 0)
      (mkDT 2025 6 1 9 0) (by decide)).2.1.mpr (by decide)

/-- Counterexample to C2 as stated: on the inverted window
start 10:00, end 9:00 with now 9:30 we have `now ≥ end`, so the claimed
"completed iff now ≥ end" biconditional demands completed, but the
classifier returns upcoming (the `now < start` test fires first). -/
theorem compute_event_status_inverted_window_cex :
    compute_event_status (mkDT 2025 6 1 10 0) (mkDT 2025 6 1 9 0) (mkDT 2025 6 1 9 30) =
      "upcoming" ∧
    truncMin (mkDT 2025 6 1 9 0) ≤ truncMin (mkDT 2025 6 1 9 30) := by decide

/-- Claim C7 (code bug): the prayer-domain classifier labels an occurrence
between its start and end `inprogress`, which is outside the documented
status vocabulary {upcoming, ongoing, completed} that the model and schema
comments and the spec prescribe — shown at 2025-06-01 09:00-10:00 with
now = 09:30. -/
theorem compute_prayer_status_returns_inprogress :
    compute_prayer_status (toOrd ⟨2025, 6, 1⟩ : Int) (9 * 3600000000) (10 * 3600000000)
        (mkDT 2025 6 1 9 30) = "inprogress" ∧
    (["upcoming", "ongoing", "completed"].contains "inprogress") = false := by decide

/-- Claim C9 (amended): every element the weekday parser returns is the
decimal value of some comma-separated token of the input that is nonempty
and all digits after stripping (so a nonnegative integer, with non-numeric
and empty tokens dropped — but with no 0-6 range check, see the
counterexample), and empty or absent input yields the empty list. -/
theorem parse_recurrence_days_sound :
    (∀ s : String, ∀ x ∈ parse_recurrence_days (some s),
      ∃ tok ∈ splitCommaChars s.data,
        stripList tok ≠ [] ∧ (stripList tok).all Char.isDigit = true ∧
        x = digitsToNat (stripList tok)) ∧
    parse_recurrence_days none = [] ∧ parse_recurrence_days (some "") = [] := by
  refine ⟨?_, rfl, rfl⟩
  intro s x hx
  simp only [parse_recurrence_days] at hx
  by_cases hs : s = ""
  · rw [if_pos hs] at hx
    exact absurd hx (List.not_mem_nil x)
  · rw [if_neg hs] at hx
    rcases List.mem_filterMap.mp hx with ⟨tok, ht, hft⟩
    by_cases hc : stripList tok ≠ [] ∧ (stripList tok).all Char.isDigit
    · rw [if_pos hc] at hft
      exact ⟨tok, ht, hc.1, hc.2, (Option.some.inj hft).symm⟩
    · rw [if_neg hc] at hft
      exact absurd hft (by simp)

/-- Counterexample to C9 as stated: the parser performs no 0-6 range check
and returns a list, not a set — the input `7,7` yields `[7, 7]`, whose
elements exceed the claimed weekday range 0-6. -/
theorem parse_recurrence_days_out_of_range_cex :
    parse_recurrence_days (some "7,7") = [7, 7] ∧ 6 < 7 := by decide

/-- Claim C10: for a fixed `now` and any occurrence window with
`end > start`, exactly one of the three tab filters of
`list_prayer_occurrences` — today, upcoming, past — accepts the
occurrence. -/
theorem prayer_tab_filters_partition (o : PrayerOccurrence) (now : Int)
    (h : o.start_datetime < o.end_datetime) :
    (prayer_tab_filter (some "today") now o = true ∧
       prayer_tab_filter (some "upcoming") now o = false ∧
       prayer_tab_filter (some "past") now o = false) ∨
    (prayer_tab_filter (some "today") now o = false ∧
       prayer_tab_filter (some "upcoming") now o = true ∧
       prayer_tab_filter (some "past") now o = false) ∨
    (prayer_tab_filter (some "today") now o = false ∧
       prayer_tab_filter (some "upcoming") now o = false ∧
       prayer_tab_filter (some "past") now o = true) := by
  have hts : todayStart now ≤ now := by
    show now / usPerDay * usPerDay + 0 ≤ now
    unfold usPerDay
    omega
  have hte : now ≤ todayEnd now := by
    show now ≤ now / usPerDay * usPerDay + (usPerDay - 1)
    unfold usPerDay
    omega
  rcases lt_or_ge (todayEnd now) o.start_datetime with hu | hu
  · right; left
    refine ⟨?_, ?_, ?_⟩
    · simp [prayer_tab_filter, not_le.mpr hu]
    · simp [prayer_tab_filter, hu]
    · have hp : ¬(o.end_datetime < now) := by push_neg; linarith
      simp [prayer_tab_filter, hp]
  · rcases lt_or_ge o.end_datetime now with hp | hp
    · right; right
      refine ⟨?_, ?_, ?_⟩
      · simp [prayer_tab_filter, show ¬(now ≤ o.end_datetime) from not_le.mpr hp]
      · simp [prayer_tab_filter, not_lt.mpr hu]
      · simp [prayer_tab_filter, hp]
    · left
      refine ⟨?_, ?_, ?_⟩
      · have h4 : todayStart now ≤ o.end_datetime := by linarith
        simp [prayer_tab_filter, hu, h4, hp]
      · simp [prayer_tab_filter, not_lt.mpr hu]
      · simp [prayer_tab_filter, not_lt.mpr hp]

/-- Witness for C10: a valid occurrence starting tomorrow falls in the
upcoming tab and in no other. -/
theorem prayer_tab_filters_partition_witness :
    prayer_tab_filter (some "today") (mkDT 2025 6 1 12 0)
        ⟨1, 10, "p", "online", none, some "wa", mkDT 2025 6 2 9 0, mkDT 2025 6 2 10 0, "upcoming"⟩ = false ∧
    prayer_tab_filter (some "upcoming") (mkDT 2025 6 1 12 0)
        ⟨1, 10, "p", "online", none, some "wa", mkDT 2025 6 2 9 0, mkDT 2025 6 2 10 0, "upcoming"⟩ = true ∧
    prayer_tab_filter (some "past") (mkDT 2025 6 1 12 0)
        ⟨1, 10, "p", "online", none, some "wa", mkDT 2025 6 2 9 0, mkDT 2025 6 2 10 0, "upcoming"⟩ = false :=
  ((prayer_tab_filters_partition
      ⟨1, 10, "p", "online", none, some "wa", mkDT 2025 6 2 9 0, mkDT 2025 6 2 10 0, "upcoming"⟩
      (mkDT 2025 6 1 12 0) (by decide)).resolve_left (by decide)).resolve_right (by decide)

/-- Helper iff for the shared prayer-type validation block: it errors
exactly when the type is neither offline nor online, or the type-specific
required field is blank. -/
theorem validate_prayer_type_fields_err (pt : String) (loc ji : Option String) :
    (validate_prayer_type_fields pt loc ji).isOk = false ↔
      ((pt ≠ "offline" ∧ pt ≠ "online") ∨
       (pt = "offline" ∧ isBlank loc = true) ∨
       (pt = "online" ∧ isBlank ji = true)) := by
  unfold validate_prayer_type_fields
  by_cases h1 : pt = "offline"
  · rw [if_pos h1]
    by_cases h2 : isBlank loc = true
    · rw [if_pos h2]
      simp only [Except.isOk]
      exact ⟨fun _ => Or.inr (Or.inl ⟨h1, h2⟩), fun _ => rfl⟩
    · rw [if_neg h2]
      simp only [Except.isOk]
      constructor
      · intro hx
        exact Bool.noConfusion hx
      · rintro (⟨ha, _⟩ | ⟨_, hb⟩ | ⟨hc, _⟩)
        · exact absurd h1 ha
        · exact absurd hb h2
        · rw [h1] at hc
          exact absurd hc (by decide)
  · rw [if_neg h1]
    by_cases h3 : pt = "online"
    · rw [if_pos h3]
      by_cases h4 : isBlank ji = true
      · rw [if_pos h4]
        simp only [Except.isOk]
        exact ⟨fun _ => Or.inr (Or.inr ⟨h3, h4⟩), fun _ => rfl⟩
      · rw [if_neg h4]
        simp only [Except.isOk]
        constructor
        · intro hx
          exact Bool.noConfusion hx
        · rintro (⟨_, hb⟩ | ⟨hc, _⟩ | ⟨_, hd⟩)
          · exact absurd h3 hb
          · exact absurd hc h1
          · exact absurd hd h4
    · simp only [if_neg h3, Except.isOk]
      exact ⟨fun _ => Or.inl ⟨h1, h3⟩, fun _ => rfl⟩

end PPH
namespace PPH

/-- Claim C6 (amended): create_prayer_series rejects exactly when the
recurrence type is invalid, the prayer type is invalid or its required
field is blank, end ≤ start, or start is before now — so a window that has
already started but not ended IS rejected (the claim said it is not; see
the counterexample).  The separate fully-in-the-past check is dead code,
subsumed by the start check. -/
theorem create_prayer_series_rejects_iff (p : PrayerSeriesCreate) (now : Int) :
    (create_prayer_series_checks p now).isOk = false ↔
      (p.recurrence_type ∉ (["none", "daily", "weekly", "monthly"] : List String) ∨
       (p.prayer_type ≠ "offline" ∧ p.prayer_type ≠ "online") ∨
       (p.prayer_type = "offline" ∧ isBlank p.location = true) ∨
       (p.prayer_type = "online" ∧ isBlank p.join_info = true) ∨
       p.end_datetime ≤ p.start_datetime ∨
       p.start_datetime < now) := by
  unfold create_prayer_series_checks
  cases hr : ["none", "daily", "weekly", "monthly"].contains p.recurrence_type with
  | false =>
    rw [if_pos (show (!false) = true from rfl)]
    have hnm : p.recurrence_type ∉ (["none", "daily", "weekly", "monthly"] : List String) := by
      intro hm
      have h2 : (["none", "daily", "weekly", "monthly"].contains p.recurrence_type) = true :=
        List.elem_iff.mpr hm
      rw [hr] at h2
      exact Bool.noConfusion h2
    exact ⟨fun _ => Or.inl hnm, fun _ => rfl⟩
  | true =>
    have hrm : p.recurrence_type ∈ (["none", "daily", "weekly", "monthly"] : List String) :=
      List.elem_iff.mp hr
    rw [if_neg (show ¬(!true) = true by decide)]
    split
    · rename_i e hv
      have htb := (validate_prayer_type_fields_err p.prayer_type p.location p.join_info).mp
        (by rw [hv]; rfl)
      exact ⟨fun _ => Or.inr (htb.elim (fun a => Or.inl a)
          (fun a => a.elim (fun b => Or.inr (Or.inl b)) (fun b => Or.inr (Or.inr (Or.inl b))))),
        fun _ => rfl⟩
    · rename_i l j hv
      have hnotb : ¬((p.prayer_type ≠ "offline" ∧ p.prayer_type ≠ "online") ∨
          (p.prayer_type = "offline" ∧ isBlank p.location = true) ∨
          (p.prayer_type = "online" ∧ isBlank p.join_info = true)) := by
        intro ht
        have hfalse := (validate_prayer_type_fields_err p.prayer_type p.location p.join_info).mpr ht
        rw [hv] at hfalse
        exact Bool.noConfusion hfalse
      split_ifs with h1 h2 h3 h4
      · exact ⟨fun _ => Or.inr (Or.inr (Or.inr (Or.inr (Or.inl h1)))), fun _ => rfl⟩
      · exact ⟨fun _ => Or.inr (Or.inr (Or.inr (Or.inr (Or.inr h2)))), fun _ => rfl⟩
      · exact ⟨fun _ => absurd h3 (by push_neg at h1 h2; push_neg; linarith), fun _ => rfl⟩
      all_goals
        constructor
        · intro hx
          exact Bool.noConfusion hx
        · rintro (hA | hB | hC | hD | hE | hF)
          · exact absurd hrm hA
          · exact (hnotb (Or.inl hB)).elim
          · exact (hnotb (Or.inr (Or.inl hC))).elim
          · exact (hnotb (Or.inr (Or.inr hD))).elim
          · exact absurd hE h1
          · exact absurd hF h2

/-- Counterexample to C6 as stated: a started-but-unfinished window
(start < now < end) is rejected by the prayer create route with the
"in the past" validation error, while the claim says only entirely-past
windows are rejected. -/
theorem create_prayer_series_rejects_started_window_cex :
    create_prayer_series_checks c6Payload c6Now =
      Except.error "Cannot create prayers in the past. Start datetime must be in the future." ∧
    c6Payload.start_datetime < c6Now ∧ c6Now < c6Payload.end_datetime :=
  ⟨rfl, by decide, by decide⟩

theorem rcBreak_some_iff (c : Int) (cnt : Nat) :
    rcBreak (some c) cnt = true ↔ (c ≠ 0 ∧ c ≤ (cnt : Int)) := by
  simp [rcBreak]

theorem dailyGo_snd (AE dur : Int) (rc : Option Int) :
    ∀ (fuel : Nat) (d cs : Int) (cnt : Nat),
      ∀ p ∈ dailyGo fuel AE dur rc d cs cnt, p.2 = p.1 + dur := by
  intro fuel
  induction fuel with
  | zero => intro d cs cnt p hp; simp [dailyGo] at hp
  | succ fuel ih =>
    intro d cs cnt p hp
    simp only [dailyGo] at hp
    split_ifs at hp with h1 h2
    · simp at hp
    · rcases List.mem_cons.mp hp with rfl | hp2
      · rfl
      · exact ih _ _ _ p hp2
    · simp at hp

theorem dailyGo_dates (AE dur : Int) (rc : Option Int) :
    ∀ (fuel : Nat) (d cs : Int) (cnt : Nat), dateOf cs = d →
      ∀ p ∈ dailyGo fuel AE dur rc d cs cnt, dateOf p.1 ≤ AE := by
  intro fuel
  induction fuel with
  | zero => intro d cs cnt hd p hp; simp [dailyGo] at hp
  | succ fuel ih =>
    intro d cs cnt hd p hp
    simp only [dailyGo] at hp
    split_ifs at hp with h1 h2
    · simp at hp
    · rcases List.mem_cons.mp hp with rfl | hp2
      · rw [hd]; exact h1
      · exact ih (d + 1) (combine (d + 1) (timeOf cs)) (cnt + 1)
          (dateOf_combine_timeOf (d + 1) cs) p hp2
    · simp at hp

theorem dailyGo_len (AE dur : Int) (c : Int) (hc : 0 < c) :
    ∀ (fuel : Nat) (d cs : Int) (cnt : Nat),
      (dailyGo fuel AE dur (some c) d cs cnt).length ≤ (c - cnt).toNat := by
  intro fuel
  induction fuel with
  | zero => intro d cs cnt; simp [dailyGo]
  | succ fuel ih =>
    intro d cs cnt
    simp only [dailyGo]
    split_ifs with h1 h2
    · simp
    · have hlt : (cnt : Int) < c := by
        by_contra hx
        push_neg at hx
        exact h2 ((rcBreak_some_iff c cnt).mpr ⟨by omega, hx⟩)
      have hrec := ih (d + 1) (combine (d + 1) (timeOf cs)) (cnt + 1)
      simp only [List.length_cons]
      omega
    · simp


theorem weeklyDays_snd (ws sd AE tod dur : Int) (rc : Option Int) :
    ∀ (days : List Nat) (cnt : Nat),
      ∀ p ∈ (weeklyDays days ws sd AE tod dur rc cnt).1, p.2 = p.1 + dur := by
  intro days
  induction days with
  | nil => intro cnt p hp; simp [weeklyDays] at hp
  | cons d rest ih =>
    intro cnt p hp
    simp only [weeklyDays] at hp
    split_ifs at hp with h1 h2 h3
    · exact ih cnt p hp
    · simp at hp
    · simp at hp
    · rcases List.mem_cons.mp hp with rfl | hp2
      · rfl
      · exact ih (cnt + 1) p hp2

theorem weeklyDays_dates (ws sd AE tod dur : Int) (rc : Option Int)
    (ht0 : 0 ≤ tod) (ht1 : tod < usPerDay) :
    ∀ (days : List Nat) (cnt : Nat),
      ∀ p ∈ (weeklyDays days ws sd AE tod dur rc cnt).1, dateOf p.1 ≤ AE := by
  intro days
  induction days with
  | nil => intro cnt p hp; simp [weeklyDays] at hp
  | cons d rest ih =>
    intro cnt p hp
    simp only [weeklyDays] at hp
    split_ifs at hp with h1 h2 h3
    · exact ih cnt p hp
    · simp at hp
    · simp at hp
    · rcases List.mem_cons.mp hp with rfl | hp2
      · have : dateOf (combine (ws + (d : Int)) tod) = ws + (d : Int) :=
          dateOf_combine _ tod ht0 ht1
        rw [this]
        push_neg at h2
        exact h2
      · exact ih (cnt + 1) p hp2

theorem weeklyDays_count (ws sd AE tod dur : Int) (rc : Option Int) :
    ∀ (days : List Nat) (cnt : Nat),
      (weeklyDays days ws sd AE tod dur rc cnt).2 =
        cnt + (weeklyDays days ws sd AE tod dur rc cnt).1.length := by
  intro days
  induction days with
  | nil => intro cnt; simp [weeklyDays]
  | cons d rest ih =>
    intro cnt
    simp only [weeklyDays]
    split_ifs with h1 h2 h3
    · exact ih cnt
    · simp
    · simp
    · have := ih (cnt + 1)
      simp only [List.length_cons]
      omega

theorem weeklyDays_len (ws sd AE tod dur : Int) (c : Int) (hc : 0 < c) :
    ∀ (days : List Nat) (cnt : Nat),
      (weeklyDays days ws sd AE tod dur (some c) cnt).1.length ≤ (c - cnt).toNat := by
  intro days
  induction days with
  | nil => intro cnt; simp [weeklyDays]
  | cons d rest ih =>
    intro cnt
    simp only [weeklyDays]
    split_ifs with h1 h2 h3
    · exact ih cnt
    · simp
    · simp
    · have hlt : (cnt : Int) < c := by
        by_contra hx
        push_neg at hx
        exact h3 ((rcBreak_some_iff c cnt).mpr ⟨by omega, hx⟩)
      have hrec := ih (cnt + 1)
      simp only [List.length_cons]
      omega

theorem weeklyGo_snd (days : List Nat) (sd AE tod dur : Int) (rc : Option Int) :
    ∀ (fuel : Nat) (cd : Int) (cnt : Nat),
      ∀ p ∈ weeklyGo fuel days sd AE tod dur rc cd cnt, p.2 = p.1 + dur := by
  intro fuel
  induction fuel with
  | zero => intro cd cnt p hp; simp [weeklyGo] at hp
  | succ fuel ih =>
    intro cd cnt p hp
    simp only [weeklyGo] at hp
    split_ifs at hp with h1 h2
    · simp at hp
    · rcases List.mem_append.mp hp with hp2 | hp2
      · exact weeklyDays_snd _ _ _ _ _ _ days cnt p hp2
      · exact ih _ _ p hp2
    · simp at hp

theorem weeklyGo_dates (days : List Nat) (sd AE tod dur : Int) (rc : Option Int)
    (ht0 : 0 ≤ tod) (ht1 : tod < usPerDay) :
    ∀ (fuel : Nat) (cd : Int) (cnt : Nat),
      ∀ p ∈ weeklyGo fuel days sd AE tod dur rc cd cnt, dateOf p.1 ≤ AE := by
  intro fuel
  induction fuel with
  | zero => intro cd cnt p hp; simp [weeklyGo] at hp
  | succ fuel ih =>
    intro cd cnt p hp
    simp only [weeklyGo] at hp
    split_ifs at hp with h1 h2
    · simp at hp
    · rcases List.mem_append.mp hp with hp2 | hp2
      · exact weeklyDays_dates _ _ _ _ _ _ ht0 ht1 days cnt p hp2
      · exact ih _ _ p hp2
    · simp at hp

theorem weeklyGo_len (days : List Nat) (sd AE tod dur : Int) (c : Int) (hc : 0 < c) :
    ∀ (fuel : Nat) (cd : Int) (cnt : Nat),
      (weeklyGo fuel days sd AE tod dur (some c) cd cnt).length ≤ (c - cnt).toNat := by
  intro fuel
  induction fuel with
  | zero => intro cd cnt; simp [weeklyGo]
  | succ fuel ih =>
    intro cd cnt
    simp only [weeklyGo]
    split_ifs with h1 h2
    · simp
    · have hinner := weeklyDays_len (cd - weekday cd) sd AE tod dur c hc days cnt
      have hcount := weeklyDays_count (cd - weekday cd) sd AE tod dur (some c) days cnt
      have hrec := ih (cd + 7) ((weeklyDays days (cd - weekday cd) sd AE tod dur (some c) cnt).2)
      rw [List.length_append]
      omega
    · simp

theorem monthlyGo_snd (AE tod dur : Int) (rc : Option Int) :
    ∀ (fuel : Nat) (cur : Ymd) (cnt : Nat),
      ∀ p ∈ monthlyGo fuel AE tod dur rc cur cnt, p.2 = p.1 + dur := by
  intro fuel
  induction fuel with
  | zero => intro cur cnt p hp; simp [monthlyGo] at hp
  | succ fuel ih =>
    intro cur cnt p hp
    simp only [monthlyGo] at hp
    split_ifs at hp with h1 h2
    · simp at hp
    · rcases List.mem_cons.mp hp with rfl | hp2
      · rfl
      · exact ih _ _ p hp2
    · simp at hp

theorem monthlyGo_dates (AE tod dur : Int) (rc : Option Int)
    (ht0 : 0 ≤ tod) (ht1 : tod < usPerDay) :
    ∀ (fuel : Nat) (cur : Ymd) (cnt : Nat),
      ∀ p ∈ monthlyGo fuel AE tod dur rc cur cnt, dateOf p.1 ≤ AE := by
  intro fuel
  induction fuel with
  | zero => intro cur cnt p hp; simp [monthlyGo] at hp
  | succ fuel ih =>
    intro cur cnt p hp
    simp only [monthlyGo] at hp
    split_ifs at hp with h1 h2
    · simp at hp
    · rcases List.mem_cons.mp hp with rfl | hp2
      · have := dateOf_combine (toOrd cur : Int) tod ht0 ht1
        rw [this]
        exact h1
      · exact ih _ _ p hp2
    · simp at hp

theorem monthlyGo_len (AE tod dur : Int) (c : Int) (hc : 0 < c) :
    ∀ (fuel : Nat) (cur : Ymd) (cnt : Nat),
      (monthlyGo fuel AE tod dur (some c) cur cnt).length ≤ (c - cnt).toNat := by
  intro fuel
  induction fuel with
  | zero => intro cur cnt; simp [monthlyGo]
  | succ fuel ih =>
    intro cur cnt
    simp only [monthlyGo]
    split_ifs with h1 h2
    · simp
    · have hlt : (cnt : Int) < c := by
        by_contra hx
        push_neg at hx
        exact h2 ((rcBreak_some_iff c cnt).mpr ⟨by omega, hx⟩)
      have hrec := ih (monthNext cur) (cnt + 1)
      simp only [List.length_cons]
      omega
    · simp


theorem dailyGo_len_int (AE dur c : Int) (hc : 0 < c) (fuel : Nat) (d cs : Int) :
    ((dailyGo fuel AE dur (some c) d cs 0).length : Int) ≤ c := by
  have := dailyGo_len AE dur c hc fuel d cs 0
  omega

theorem weeklyGo_len_int (days : List Nat) (sd AE tod dur c : Int) (hc : 0 < c)
    (fuel : Nat) (cd : Int) :
    ((weeklyGo fuel days sd AE tod dur (some c) cd 0).length : Int) ≤ c := by
  have := weeklyGo_len days sd AE tod dur c hc fuel cd 0
  omega

theorem monthlyGo_len_int (AE tod dur c : Int) (hc : 0 < c) (fuel : Nat) (cur : Ymd) :
    ((monthlyGo fuel AE tod dur (some c) cur 0).length : Int) ≤ c := by
  have := monthlyGo_len AE tod dur c hc fuel cur 0
  omega

/-- Claim C8: for a valid series window (end > start) and any recurrence
rule, every generated occurrence window has exactly the anchor's duration:
each branch emits `(x, x + duration)` and the none branch emits the anchor
itself. -/
theorem generate_occurrences_preserves_duration (s e : Int) (rt : String)
    (rd : Option String) (red : Option Int) (rc : Option Int) (mm : Nat) (h : s < e) :
    ∀ p ∈ generate_occurrences s e rt rd red rc mm, p.2 - p.1 = e - s := by
  intro p hp
  simp only [generate_occurrences] at hp
  by_cases h1 : rt = "none"
  · rw [if_pos h1] at hp
    simp only [List.mem_singleton] at hp
    subst hp
    ring
  · rw [if_neg h1] at hp
    by_cases h2 : rt = "daily"
    · rw [if_pos h2] at hp
      have hd := dailyGo_snd _ _ _ _ _ _ _ p hp
      linarith
    · rw [if_neg h2] at hp
      by_cases h3 : rt = "weekly"
      · rw [if_pos h3] at hp
        have hd := weeklyGo_snd _ _ _ _ _ _ _ _ _ p hp
        linarith
      · rw [if_neg h3] at hp
        by_cases h4 : rt = "monthly"
        · rw [if_pos h4] at hp
          have hd := monthlyGo_snd _ _ _ _ _ _ _ p hp
          linarith
        · rw [if_neg h4] at hp
          exact absurd hp (List.not_mem_nil p)

/-- Witness for C8: in the daily series anchored Jan 31 2025 09:00-10:00,
the second occurrence (Feb 1) spans exactly one hour. -/
theorem generate_occurrences_preserves_duration_witness :
    (mkDT 2025 2 1 10 0) - (mkDT 2025 2 1 9 0) =
      (mkDT 2025 1 31 10 0) - (mkDT 2025 1 31 9 0) :=
  generate_occurrences_preserves_duration (mkDT 2025 1 31 9 0) (mkDT 2025 1 31 10 0)
    "daily" none none (some 2) 3 (by decide)
    (mkDT 2025 2 1 9 0, mkDT 2025 2 1 10 0) (by decide)

/-- Claim C1 (amended): generation never emits more than
`recurrence_count` occurrences when the count is set to a positive value
(Python truthiness makes a zero count mean "no limit"), and for the
recurring types the start date of every occurrence stays within the
tighter of the anchor date plus `30 * max_months` DAYS (not calendar
months, see the counterexample) and `recurrence_end_date`; the none branch
ignores the bounds and emits the anchor itself. -/
theorem generate_occurrences_bounded (s e : Int) (rt : String)
    (rd : Option String) (red : Option Int) (rc : Option Int) (mm : Nat) :
    (∀ c : Int, rc = some c → 0 < c →
      ((generate_occurrences s e rt rd red rc mm).length : Int) ≤ c) ∧
    ((rt = "daily" ∨ rt = "weekly" ∨ rt = "monthly") →
      ∀ p ∈ generate_occurrences s e rt rd red rc mm,
        dateOf p.1 ≤ min (dateOf s + 30 * (mm : Int)) (red.getD (dateOf s + 30 * (mm : Int)))) := by
  constructor
  · rintro c rfl hc
    simp only [generate_occurrences]
    by_cases h1 : rt = "none"
    · rw [if_pos h1]
      simp only [List.length_singleton, Nat.cast_one]
      omega
    · rw [if_neg h1]
      by_cases h2 : rt = "daily"
      · rw [if_pos h2]
        exact dailyGo_len_int _ _ c hc _ _ _
      · rw [if_neg h2]
        by_cases h3 : rt = "weekly"
        · rw [if_pos h3]
          exact weeklyGo_len_int _ _ _ _ _ c hc _ _
        · rw [if_neg h3]
          by_cases h4 : rt = "monthly"
          · rw [if_pos h4]
            exact monthlyGo_len_int _ _ _ c hc _ _
          · rw [if_neg h4]
            simp only [List.length_nil, Nat.cast_zero]
            omega
  · intro hrt p hp
    have ht0 : 0 ≤ timeOf s := timeOf_nonneg s
    have ht1 : timeOf s < usPerDay := timeOf_lt s
    rcases red with _ | r
    · simp only [generate_occurrences, Option.getD_none, min_self] at hp ⊢
      rcases hrt with rfl | rfl | rfl
      · rw [if_neg (by decide), if_pos rfl] at hp
        exact dailyGo_dates _ _ _ _ _ _ _ rfl p hp
      · rw [if_neg (by decide), if_neg (by decide), if_pos rfl] at hp
        exact weeklyGo_dates _ _ _ _ _ _ ht0 ht1 _ _ _ p hp
      · rw [if_neg (by decide), if_neg (by decide), if_neg (by decide), if_pos rfl] at hp
        exact monthlyGo_dates _ _ _ _ ht0 ht1 _ _ _ p hp
    · simp only [generate_occurrences, Option.getD_some] at hp ⊢
      rcases hrt with rfl | rfl | rfl
      · rw [if_neg (by decide), if_pos rfl] at hp
        exact dailyGo_dates _ _ _ _ _ _ _ rfl p hp
      · rw [if_neg (by decide), if_neg (by decide), if_pos rfl] at hp
        exact weeklyGo_dates _ _ _ _ _ _ ht0 ht1 _ _ _ p hp
      · rw [if_neg (by decide), if_neg (by decide), if_neg (by decide), if_pos rfl] at hp
        exact monthlyGo_dates _ _ _ _ ht0 ht1 _ _ _ p hp

/-- Witness for C1: a daily series with `recurrence_count = 2` yields at
most two occurrences. -/
theorem generate_occurrences_bounded_witness :
    ((generate_occurrences (mkDT 2025 1 31 9 0) (mkDT 2025 1 31 10 0) "daily"
        none none (some 2) 3).length : Int) ≤ 2 :=
  (generate_occurrences_bounded (mkDT 2025 1 31 9 0) (mkDT 2025 1 31 10 0) "daily"
      none none (some 2) 3).1 2 rfl (by decide)

/-- Counterexample to C1 as stated: with `max_months = 3` and no
recurrence end date, the daily series anchored Jan 31 2025 emits an
occurrence starting May 1 2025, strictly past the anchor advanced by three
calendar months (Apr 28 2025 by the spec's clamping month step) — the code
bounds by `3 * 30` days, not calendar months. -/
theorem generate_past_calendar_month_bound_cex :
    (mkDT 2025 5 1 9 0, mkDT 2025 5 1 10 0) ∈
      generate_occurrences (mkDT 2025 1 31 9 0) (mkDT 2025 1 31 10 0) "daily" none none none 3 ∧
    (toOrd (advanceMonthsSpec 3 ⟨2025, 1, 31⟩) : Int) < dateOf (mkDT 2025 5 1 9 0) ∧
    advanceMonthsSpec 3 ⟨2025, 1, 31⟩ = ⟨2025, 4, 28⟩ := by decide

/-- A successful lookup returns a member row carrying the looked-up id. -/
theorem lookupOcc_mem {state : List PrayerOccurrence} {i : Nat} {o : PrayerOccurrence}
    (h : lookupOcc state i = some o) : o ∈ state ∧ o.id = i := by
  unfold lookupOcc at h
  refine ⟨List.mem_of_find?_eq_some h, ?_⟩
  have := List.find?_some h
  simpa using this

/-- With primary-key-unique ids, two member rows with equal ids are the
same row. -/
theorem mem_id_unique {state : List PrayerOccurrence} (hn : (state.map (·.id)).Nodup)
    {o o2 : PrayerOccurrence} (h1 : o ∈ state) (h2 : o2 ∈ state) (hid : o.id = o2.id) :
    o = o2 := by
  induction state with
  | nil => cases h1
  | cons a tl ih =>
    simp only [List.map_cons, List.nodup_cons] at hn
    rcases List.mem_cons.mp h1 with rfl | h1t
    · rcases List.mem_cons.mp h2 with rfl | h2t
      · rfl
      · exact absurd (by rw [hid]; exact List.mem_map_of_mem _ h2t) hn.1
    · rcases List.mem_cons.mp h2 with rfl | h2t
      · exact absurd (by rw [← hid]; exact List.mem_map_of_mem _ h1t) hn.1
      · exact ih hn.2 h1t h2t

/-- Looking a member row's id up in the id-preservingly mapped table finds
the row's image. -/
theorem lookupOcc_map {f : PrayerOccurrence → PrayerOccurrence}
    (hf : ∀ x, (f x).id = x.id) :
    ∀ {state : List PrayerOccurrence}, (state.map (·.id)).Nodup →
      ∀ {o}, o ∈ state → lookupOcc (state.map f) o.id = some (f o) := by
  intro state
  induction state with
  | nil => intro _ o ho; cases ho
  | cons a tl ih =>
    intro hn o ho
    simp only [List.map_cons, List.nodup_cons] at hn
    rcases List.mem_cons.mp ho with rfl | hot
    · show List.find? _ _ = _
      rw [List.map_cons, List.find?_cons_of_pos]
      simp [hf o]
    · have hne : (f a).id ≠ o.id := by
        rw [hf a]
        intro hx
        exact hn.1 (by rw [hx]; exact List.mem_map_of_mem _ hot)
      show List.find? _ _ = _
      rw [List.map_cons, List.find?_cons_of_neg]
      · exact ih hn.2 hot
      · simp [hne]

/-- Claim C5: a successful delete with `delete_future` never removes a row
whose start is at or before `now` — the target must not have started (else
the route fails) and the future pass only deletes rows with
`start > now`. -/
theorem delete_future_never_deletes_started
    (state state2 : List PrayerOccurrence) (tid : Nat) (now : Int)
    (hn : (state.map (·.id)).Nodup)
    (hok : delete_prayer_occurrence state tid true now = Except.ok state2) :
    ∀ o ∈ state, o.start_datetime ≤ now → o ∈ state2 := by
  intro o ho hs
  unfold delete_prayer_occurrence at hok
  split at hok
  · exact Except.noConfusion hok
  · rename_i occ hfind
    split_ifs at hok with hstart
    have hstate2 := Except.ok.inj hok
    have hocc := lookupOcc_mem hfind
    push_neg at hstart
    rw [← hstate2]
    apply List.mem_filter.mpr
    refine ⟨ho, ?_⟩
    have hne : o.id ≠ tid := by
      intro hx
      have heq : o = occ := mem_id_unique hn ho hocc.1 (by rw [hx, hocc.2])
      rw [heq] at hs
      exact absurd hstart (not_lt.mpr hs)
    simp [hne, not_lt.mpr hs]


/-- The per-row edit map never changes a row's id. -/
theorem edit_occ_map_id (occurrence : PrayerOccurrence) (occurrence_id : Nat)
    (upd : PrayerOccurrenceUpdate) (location join_info : Option String)
    (apply_to_future : Bool) (now original_start_datetime : Int) (o : PrayerOccurrence) :
    (edit_occ_map occurrence occurrence_id upd location join_info apply_to_future now
      original_start_datetime o).id = o.id := by
  unfold edit_occ_map apply_new_times
  split_ifs <;> rfl

/-- Claim C3: a successful edit with `apply_to_future` rewrites exactly the
sibling rows of the target's series whose start is strictly after the
target's original start and strictly after `now`: each such sibling's new
start combines the sibling's own original start date with the edit's new
time of day (so its date — and hence the distinctness of sibling dates —
is preserved), and every other non-target row is returned unchanged. -/
theorem update_apply_future_shifts_future_siblings
    (state state2 : List PrayerOccurrence) (tid : Nat) (upd : PrayerOccurrenceUpdate)
    (now : Int) (t : PrayerOccurrence)
    (hn : (state.map (·.id)).Nodup)
    (ht : lookupOcc state tid = some t)
    (hok : update_prayer_occurrence state tid upd true now = Except.ok state2) :
    ∀ o ∈ state, o.id ≠ tid →
      ((o.prayer_series_id = t.prayer_series_id ∧ t.start_datetime < o.start_datetime ∧
          now < o.start_datetime) →
        ∃ o2, lookupOcc state2 o.id = some o2 ∧
          o2.start_datetime = combine (dateOf o.start_datetime) (timeOf upd.start_datetime) ∧
          dateOf o2.start_datetime = dateOf o.start_datetime) ∧
      (¬(o.prayer_series_id = t.prayer_series_id ∧ t.start_datetime < o.start_datetime ∧
          now < o.start_datetime) →
        lookupOcc state2 o.id = some o) := by
  unfold update_prayer_occurrence at hok
  split at hok
  · rename_i heq
    rw [ht] at heq
    exact Option.noConfusion heq
  · rename_i occ heq
    have hocc_t : occ = t := Option.some.inj (heq.symm.trans ht)
    subst hocc_t
    split at hok
    · exact Except.noConfusion hok
    split at hok
    · exact Except.noConfusion hok
    rename_i loc ji hv
    split_ifs at hok with hend hstart2
    have hstate2 : state2 = state.map (edit_occ_map occ tid upd loc ji true now
        occ.start_datetime) := (Except.ok.inj hok).symm
    subst hstate2
    intro o ho hne
    have hf : ∀ x : PrayerOccurrence,
        (edit_occ_map occ tid upd loc ji true now occ.start_datetime x).id = x.id :=
      fun x => edit_occ_map_id occ tid upd loc ji true now occ.start_datetime x
    have hlook := lookupOcc_map hf hn ho
    constructor
    · intro hcond
      have hmap_eq : edit_occ_map occ tid upd loc ji true now occ.start_datetime o =
          apply_new_times upd loc ji (timeOf upd.start_datetime) (timeOf upd.end_datetime)
            (upd.end_datetime - upd.start_datetime) now o := by
        unfold edit_occ_map
        rw [if_neg (by simp [hne]), if_pos (by simp [hcond.1, hcond.2.1, hcond.2.2])]
      refine ⟨_, hlook, ?_, ?_⟩
      · rw [hmap_eq]
        rfl
      · rw [hmap_eq]
        show dateOf (combine (dateOf o.start_datetime) (timeOf upd.start_datetime)) =
          dateOf o.start_datetime
        exact dateOf_combine_timeOf _ _
    · intro hncond
      have hmap_eq : edit_occ_map occ tid upd loc ji true now occ.start_datetime o = o := by
        unfold edit_occ_map
        rw [if_neg (by simp [hne]), if_neg ?_]
        simp only [Bool.true_and, Bool.and_eq_true, beq_iff_eq, decide_eq_true_eq]
        exact fun hx => hncond ⟨hx.1.1, hx.1.2, hx.2⟩
      exact hlook.trans (by rw [hmap_eq])


/-- Witness for C3: in a weekly series of three future Mondays at
9:00-10:00, editing the first to 9:30-10:30 with apply-to-future moves the
second Monday to 9:30 on its own date. -/
theorem update_apply_future_shifts_future_siblings_witness :
    ∃ o2, lookupOcc ((update_prayer_occurrence c3State 1 c3Upd true c3Now).toOption.getD [])
        c3Occ2.id = some o2 ∧
      o2.start_datetime = combine (dateOf c3Occ2.start_datetime) (timeOf c3Upd.start_datetime) ∧
      dateOf o2.start_datetime = dateOf c3Occ2.start_datetime :=
  ((update_apply_future_shifts_future_siblings c3State
      ((update_prayer_occurrence c3State 1 c3Upd true c3Now).toOption.getD [])
      1 c3Upd c3Now c3Occ1 (by decide) (by decide) rfl) c3Occ2 (by decide) (by decide)).1
    (by decide)

/-- Witness for C5: deleting a future occurrence with `delete_future` set
leaves the already-started sibling of the same series in the table. -/
theorem delete_future_never_deletes_started_witness :
    c5Started ∈ (delete_prayer_occurrence c5State 1 true c3Now).toOption.getD [] :=
  delete_future_never_deletes_started c5State
    ((delete_prayer_occurrence c5State 1 true c3Now).toOption.getD []) 1 c3Now
    (by decide) rfl c5Started (by decide) (by decide)

/-- Claim C4 (code bug): apply-to-future can persist a sibling with
`end_datetime < start_datetime`.  Editing the first occurrence of a series
of same-day 21:00-22:00 windows to the valid multi-day window
23:00 (June 2) - 01:00 (June 3) re-derives the same-day sibling of June 9
as 23:00 June 9 - 01:00 June 9 — the same-day branch of the re-derivation
has no end-after-start fix-up — violating the spec's window invariant. -/
theorem update_apply_future_breaks_window_invariant :
    (update_prayer_occurrence [c4Occ1, c4Occ2] 1 c4Upd true c3Now).isOk = true ∧
    ((update_prayer_occurrence [c4Occ1, c4Occ2] 1 c4Upd true c3Now).toOption.getD []).any
        (fun o => o.end_datetime < o.start_datetime) = true := by decide

end PPH
